import Mathlib

/-!
Verification of the Screw card-game rules engine.

This file gives a shallow embedding of the engine sources
(`src/game.py`, `src/utilities.py`, `src/messaging.py`,
`src/player_state.py`, `src/constants.py`, `src/game_types.py`)
together with the semantics of the `pydealer` card library they build on
(card identity, the default card comparison used by `Card.__ge__`,
the default sort order used by `Stack.sort`, and dealing from the top,
i.e. the end, of a stack).  Python exceptions are modelled with
`Option`/`Except`: a `none`/`.error` result marks the places where the
Python code raises.  Machine integers are not involved; all counts are
`Nat`/`Int`.

Specification-side definitions (named `spec...` or `...Claim...`) follow
the wording of the natural-language specification and are compared with
the embedded code.
-/

namespace Screw

/-! ## Card model (pydealer `Card`) -/

/-- Suits, as in pydealer's `SUITS = [Diamonds, Clubs, Hearts, Spades]`. -/
inductive Suit where
  | diamonds
  | clubs
  | hearts
  | spades
deriving DecidableEq, Repr, Fintype

/-- Card values, as in pydealer's
`VALUES = [2, 3, 4, 5, 6, 7, 8, 9, 10, Jack, Queen, King, Ace]`. -/
inductive Value where
  | two
  | three
  | four
  | five
  | six
  | seven
  | eight
  | nine
  | ten
  | jack
  | queen
  | king
  | ace
deriving DecidableEq, Repr, Fintype

/-- A playing card; pydealer's `Card` is identified by value and suit
(`Card.__eq__` compares exactly these two fields). -/
structure Card where
  value : Value
  suit : Suit
deriving DecidableEq, Repr, Fintype

/-- pydealer `DEFAULT_RANKS[values]`: Ace 13 down to 2 at 1. -/
def defaultValueRank : Value → Nat
  | .ace => 13
  | .king => 12
  | .queen => 11
  | .jack => 10
  | .ten => 9
  | .nine => 8
  | .eight => 7
  | .seven => 6
  | .six => 5
  | .five => 4
  | .four => 3
  | .three => 2
  | .two => 1

/-- pydealer `DEFAULT_RANKS[suits]`: Spades 4, Hearts 3, Clubs 2, Diamonds 1. -/
def defaultSuitRank : Suit → Nat
  | .spades => 4
  | .hearts => 3
  | .clubs => 2
  | .diamonds => 1

/-- pydealer `Card.__ge__`: value strictly greater, or value at least as
great and suit at least as great, under `DEFAULT_RANKS`. -/
def cardGe (c d : Card) : Bool :=
  decide (defaultValueRank d.value < defaultValueRank c.value) ||
    (decide (defaultValueRank d.value ≤ defaultValueRank c.value) &&
      decide (defaultSuitRank d.suit ≤ defaultSuitRank c.suit))

/-- Index of a value in pydealer's `VALUES` list (2 first, Ace last);
`get_available_plays_from_stack` builds `value_order` from it. -/
def valueOrderIndex : Value → Nat
  | .two => 0
  | .three => 1
  | .four => 2
  | .five => 3
  | .six => 4
  | .seven => 5
  | .eight => 6
  | .nine => 7
  | .ten => 8
  | .jack => 9
  | .queen => 10
  | .king => 11
  | .ace => 12

/-! ## Card serialisation (`src/constants.py`, `src/utilities.py`) -/

/-- `ENCODE_SUIT` from `src/constants.py`. -/
def encodeSuit : Suit → String
  | .diamonds => "D"
  | .clubs => "C"
  | .hearts => "H"
  | .spades => "S"

/-- `ENCODE_VALUE` from `src/constants.py`. -/
def encodeValue : Value → String
  | .two => "2"
  | .three => "3"
  | .four => "4"
  | .five => "5"
  | .six => "6"
  | .seven => "7"
  | .eight => "8"
  | .nine => "9"
  | .ten => "T"
  | .jack => "J"
  | .queen => "Q"
  | .king => "K"
  | .ace => "A"

/-- `serialize_card` from `src/utilities.py`: suit letter then value letter. -/
def serialize_card (c : Card) : String :=
  encodeSuit c.suit ++ encodeValue c.value

/-- `serialize_cards` from `src/utilities.py`: comma-joined card codes. -/
def serialize_cards (cards : List Card) : String :=
  String.intercalate "," (cards.map serialize_card)

/-! ## Sorting (pydealer `Stack.sort` via `sort_cards`)

`sort_cards` first sorts by suit rank and then stably by value rank, so
the result is ordered by the pair (value rank, suit rank).  That pair
determines the card, so the order is total and antisymmetric and any two
permuted lists have the same sorted form. -/

/-- Combined sort key: value rank is primary, suit rank breaks ties.
Suit ranks lie in 1..4, so multiplying the value rank by 8 keeps the
encoding injective. -/
def cardKey (c : Card) : Nat :=
  defaultValueRank c.value * 8 + defaultSuitRank c.suit

/-- The sort order used by pydealer's default `Stack.sort`. -/
def cardLE (c d : Card) : Prop :=
  cardKey c ≤ cardKey d

instance : DecidableRel cardLE := fun c d => Nat.decLe (cardKey c) (cardKey d)

instance : IsTotal Card cardLE := ⟨fun c d => Nat.le_total (cardKey c) (cardKey d)⟩

instance : IsTrans Card cardLE := ⟨fun _ _ _ h₁ h₂ => Nat.le_trans h₁ h₂⟩

instance : IsAntisymm Card cardLE :=
  ⟨fun c d h₁ h₂ =>
    (by decide : ∀ a b : Card, cardKey a = cardKey b → a = b) c d (Nat.le_antisymm h₁ h₂)⟩

/-- pydealer `Stack.sort` with the default ranks. -/
def sortCards (l : List Card) : List Card :=
  List.insertionSort cardLE l

/-! ## `src/utilities.py` -/

/-- `are_all_cards_same_value`: raises (`none`) on an empty stack, otherwise
reports whether the set of values has exactly one element. -/
def are_all_cards_same_value (stack : List Card) : Option Bool :=
  if stack.isEmpty then none
  else some (decide ((stack.map Card.value).dedup.length = 1))

/-- `does_play_trump_last_play`: `True` when there is no last play; `False`
when fewer cards are played than the last play holds; otherwise pydealer's
`cards_played[0] >= last_play[0]`.  Indexing an empty list raises (`none`). -/
def does_play_trump_last_play (cards_played : List Card)
    (last_play : Option (List Card)) : Option Bool :=
  match last_play with
  | none => some true
  | some lp =>
    if cards_played.length < lp.length then some false
    else
      match cards_played, lp with
      | c :: _, l :: _ => some (cardGe c l)
      | _, _ => none

/-- `card_set_from_stack` difference test: the Python code forms
`set(cards) - set(hand)` and checks whether it is non-empty; a card is
already a (value, suit) pair. -/
def cardsMissingFrom (cards stack : List Card) : Bool :=
  cards.any (fun c => ¬ stack.contains c)

/-- A table stack: hidden bottom card and optional face-up top card. -/
structure TableStack where
  bottom_card : Card
  top_card : Option Card := none
deriving DecidableEq, Repr

/-- A player's holdings: table stacks plus a hand stack. -/
structure Hand where
  table_stacks : List TableStack := []
  hand_stack : List Card := []
deriving DecidableEq, Repr

instance : Inhabited Hand := ⟨{}⟩

/-- `build_face_up_table_stack`: the present `top_card`s, in stack order. -/
def build_face_up_table_stack (table_stacks : List TableStack) : List Card :=
  table_stacks.filterMap TableStack.top_card

/-- Python `discard_pile[-n:]` for positive `n`: the last `n` elements
(the whole list when it is shorter). -/
def lastN (n : Nat) (l : List Card) : List Card :=
  l.drop (l.length - n)

/-- The `(last_play_order, last_play_count)` pair computed at the top of
`get_available_plays_from_stack`; indexing `last_play[0]` on an empty
stack raises (`none`). -/
def lastPlayParams (last_play : Option (List Card)) : Option (Nat × Nat) :=
  match last_play with
  | none => some (valueOrderIndex .two, 1)
  | some [] => none
  | some (l :: rest) => some (valueOrderIndex l.value, (l :: rest).length)

/-- One rank group's contribution to the available plays, following the
`if value in [2, 10] / elif four-run / elif order and count / else` chain
of `get_available_plays_from_stack`.  `group` is the (sorted) list of
cards of one value `v` appearing in the sorted source stack. -/
def availablePlaysForGroup (v : Value) (group : List Card)
    (discard_pile : List Card) (lpOrder lpCount : Nat) : List String :=
  if v = .two ∨ v = .ten then
    group.map serialize_card
  else if group.length < 4 ∧ 4 - group.length ≤ discard_pile.length ∧
      are_all_cards_same_value (group ++ lastN (4 - group.length) discard_pile) = some true then
    [serialize_cards (sortCards group)]
  else if lpOrder ≤ valueOrderIndex v ∧ lpCount ≤ group.length then
    (List.range' lpCount (group.length + 1 - lpCount)).flatMap
      (fun k => (List.sublistsLen k group).map (fun comb => serialize_cards (sortCards comb)))
  else
    []

/-- `get_available_plays_from_stack`: sort the source stack, group the
cards by value (the dict preserves each group in sorted order), and
collect every group's plays.  Raises (`none`) when `last_play` is a
present-but-empty stack. -/
def get_available_plays_from_stack (stack : List Card)
    (last_play : Option (List Card)) (discard_pile : List Card) :
    Option (List String) :=
  match lastPlayParams last_play with
  | none => none
  | some (lpOrder, lpCount) =>
    some ((((sortCards stack).map Card.value).dedup).flatMap
      (fun v => availablePlaysForGroup v
        ((sortCards stack).filter (fun c => c.value = v))
        discard_pile lpOrder lpCount))

/-- `get_available_plays_from_hand`: play from the hand stack when it is
non-empty, else from the face-up table cards when table stacks remain,
else there are no available plays. -/
def get_available_plays_from_hand (hand : Hand) (last_play : Option (List Card))
    (discard_pile : List Card) : Option (List String) :=
  if hand.hand_stack.isEmpty = false then
    get_available_plays_from_stack hand.hand_stack last_play discard_pile
  else if hand.table_stacks.isEmpty = false then
    get_available_plays_from_stack (build_face_up_table_stack hand.table_stacks)
      last_play discard_pile
  else
    some []

/-- `is_play_available`: membership of the sorted serialisation of the
played cards in the available plays.  (The Python code also sorts
`cards_played` in place; the game-state model applies `sortCards` at the
call sites to mirror that.) -/
def is_play_available (hand : Hand) (last_play : Option (List Card))
    (cards_played : List Card) (discard_pile : List Card) : Option Bool :=
  (get_available_plays_from_hand hand last_play discard_pile).map
    (fun plays => plays.contains (serialize_cards (sortCards cards_played)))

/-- `count_player_cards`: hand size plus 2 per table stack with a face-up
card and 1 per table stack without. -/
def count_player_cards (hand : Hand) : Nat :=
  hand.hand_stack.length +
    (hand.table_stacks.map (fun ts => if ts.top_card.isSome then 2 else 1)).sum

/-- `does_hand_have_known_cards`: hand cards or face-up cards exist. -/
def does_hand_have_known_cards (hand : Hand) : Bool :=
  decide (0 < hand.hand_stack.length) ||
    decide (0 < (build_face_up_table_stack hand.table_stacks).length)

end Screw

namespace Screw

/-! ## Game state (`src/game.py`) -/

/-- The rules engine's state: `Game.__init__` fields. -/
structure GameState where
  number_of_players : Nat
  deck : List Card
  discard_pile : List Card
  eliminated_cards : List Card
  player_hands : List Hand
  last_play : Option (List Card)
  player_turn : Nat
  win : Option Nat
deriving DecidableEq, Repr

instance : Inhabited GameState :=
  ⟨{ number_of_players := 0, deck := [], discard_pile := [], eliminated_cards := [],
     player_hands := [], last_play := none, player_turn := 0, win := none }⟩

/-- The hand of player `p` (lists are always long enough in reachable states). -/
def getHand (s : GameState) (p : Nat) : Hand :=
  s.player_hands.getD p {}

/-- Replace the hand of player `p`. -/
def setHand (s : GameState) (p : Nat) (h : Hand) : GameState :=
  { s with player_hands := s.player_hands.set p h }

/-- Append cards to the hand stack of player `p`
(`player_hands[p].hand_stack += cards`). -/
def addToHandStack (s : GameState) (p : Nat) (cards : List Card) : GameState :=
  setHand s p { getHand s p with hand_stack := (getHand s p).hand_stack ++ cards }

/-- `Game.assert_conservation_of_cards` counts this total and asserts it
equals `DECK_LEN = 52`. -/
def totalCards (s : GameState) : Nat :=
  s.deck.length + s.discard_pile.length + s.eliminated_cards.length +
    (s.player_hands.map count_player_cards).sum

/-- `Game.update_turn`. -/
def update_turn (s : GameState) (count : Nat) : GameState :=
  { s with player_turn := (s.player_turn + count) % s.number_of_players }

/-- `Game.deal_card`: when the deck is non-empty, move its top (end) card
to the hand stack of player `p`; otherwise do nothing. -/
def deal_card (s : GameState) (p : Nat) : GameState :=
  match s.deck.getLast? with
  | none => s
  | some c => addToHandStack { s with deck := s.deck.dropLast } p [c]

/-- `Game.pickup_discard_pile`: the discard pile joins the player's hand,
`last_play` clears, and the turn advances by one. -/
def pickup_discard_pile (s : GameState) (p : Nat) : GameState :=
  update_turn
    { addToHandStack s p s.discard_pile with discard_pile := [], last_play := none } 1

/-- `Game.check_victory`: no table stacks and no hand cards. -/
def check_victory (s : GameState) (p : Nat) : Bool :=
  (getHand s p).table_stacks.isEmpty && (getHand s p).hand_stack.isEmpty

/-- `Game.check_for_burn`: asserts `last_play` is set (and indexes its first
card), then burns on a 10 or on four equal-rank cards (rank not 2) atop a
discard pile of at least four cards. -/
def check_for_burn (s : GameState) : Option Bool :=
  match s.last_play with
  | none => none
  | some [] => none
  | some (l :: _) =>
    if l.value = .ten then some true
    else
      some (decide (4 ≤ s.discard_pile.length) && decide (l.value ≠ .two) &&
        (are_all_cards_same_value (lastN 4 s.discard_pile) == some true))

/-- The state after the first three lines of `Game.play_cards`: the played
cards become `last_play`, join the discard pile, and victory is checked
(setting `win`). -/
def playCardsMid (s : GameState) (p : Nat) (cards : List Card) : GameState :=
  let s1 := { s with last_play := some cards, discard_pile := s.discard_pile ++ cards }
  if check_victory s1 p then { s1 with win := some p } else s1

/-- `stored_last_play and stored_last_play.cards[0].value ==
self.last_play[0].value and self.last_play[0].value != "2"`: a Python
`Stack` is falsy when `None` or empty. -/
def skipCondition (stored : Option (List Card)) (cards : List Card) : Bool :=
  match stored, cards with
  | some (l :: _), c :: _ => decide (l.value = c.value) && decide (c.value ≠ .two)
  | _, _ => false

/-- `Game.play_cards`: record the play, check victory, then either burn
(discard pile to eliminated cards, no draw, no turn advance) or draw one
card and advance the turn by 2 on a matching non-2 rank, else by 1. -/
def play_cards (s : GameState) (p : Nat) (cards : List Card) : Option GameState :=
  let s2 := playCardsMid s p cards
  match check_for_burn s2 with
  | none => none
  | some true =>
    some { s2 with eliminated_cards := s2.eliminated_cards ++ s2.discard_pile,
                   discard_pile := [], last_play := none }
  | some false =>
    some (update_turn (deal_card s2 p) (if skipCondition s.last_play cards then 2 else 1))

/-- `Game.remove_cards_from_hand_stack`: raise when some requested card is
absent, otherwise remove every copy of each requested card
(pydealer `Stack.get` removes all matches of the card's name). -/
def remove_cards_from_hand_stack (hand_stack : List Card) (cards : List Card) :
    Except Unit (List Card) :=
  if cardsMissingFrom cards hand_stack then .error ()
  else .ok (hand_stack.filter (fun c => ¬ cards.contains c))

/-- Clear the first table stack whose `top_card` equals `c`
(the inner loop of `Game.remove_cards_from_face_up`). -/
def clearFirstTop (table_stacks : List TableStack) (c : Card) :
    Option (List TableStack) :=
  match table_stacks with
  | [] => none
  | ts :: rest =>
    if ts.top_card = some c then some ({ ts with top_card := none } :: rest)
    else (clearFirstTop rest c).map (fun rest2 => ts :: rest2)

/-- The removal loop of `Game.remove_cards_from_face_up`: for each card in
order, clear the first matching stack top; count the removals. -/
def clearTopsLoop (table_stacks : List TableStack) (cards : List Card) :
    List TableStack × Nat :=
  match cards with
  | [] => (table_stacks, 0)
  | c :: rest =>
    match clearFirstTop table_stacks c with
    | some ts2 =>
      let (ts3, n) := clearTopsLoop ts2 rest
      (ts3, n + 1)
    | none => clearTopsLoop table_stacks rest

/-- `Game.remove_cards_from_face_up`: raise (with the stacks untouched)
when some requested card is not face up; then clear matching tops one by
one, and raise at the end - with the mutations kept - when fewer cards
were removed than requested. -/
def remove_cards_from_face_up (table_stacks : List TableStack)
    (cards : List Card) : Except (List TableStack) (List TableStack) :=
  if cardsMissingFrom cards (build_face_up_table_stack table_stacks) then
    .error table_stacks
  else
    let (ts2, removed) := clearTopsLoop table_stacks cards
    if removed ≠ cards.length then .error ts2 else .ok ts2

/-- `Game.handle_face_down_play`: pop the last table stack, reveal its
bottom card, and either play it or add it to the hand and pick up the
discard pile.  Popping an empty list raises (`none`). -/
def handle_face_down_play (s : GameState) (p : Nat) : Option GameState :=
  match (getHand s p).table_stacks.getLast? with
  | none => none
  | some ts =>
    let s1 := setHand s p
      { getHand s p with table_stacks := (getHand s p).table_stacks.dropLast }
    let card := ts.bottom_card
    match does_play_trump_last_play [card] s.last_play with
    | none => none
    | some true => play_cards s1 p [card]
    | some false => some (pickup_discard_pile (addToHandStack s1 p [card]) p)

/-- `Game.handle_face_up_play`: when the play is available, remove the
cards from the face-up tops and play them; otherwise try to move them
from the table to the hand (swallowing a failed removal, which keeps any
partial mutation) and pick up the discard pile.  `is_play_available`
sorts the played stack in place, so the sorted cards are used from then
on.  An exception escaping the available branch also keeps the partial
mutation (the caller treats it as an invalid action). -/
def handle_face_up_play (s : GameState) (p : Nat) (cards_played : List Card) :
    Option GameState :=
  match is_play_available (getHand s p) s.last_play cards_played s.discard_pile with
  | none => none
  | some avail =>
    let cardsS := sortCards cards_played
    if avail then
      match remove_cards_from_face_up (getHand s p).table_stacks cardsS with
      | .ok ts2 =>
        play_cards (setHand s p { getHand s p with table_stacks := ts2 }) p cardsS
      | .error tsPartial =>
        some (setHand s p { getHand s p with table_stacks := tsPartial })
    else
      let s1 :=
        match remove_cards_from_face_up (getHand s p).table_stacks cardsS with
        | .ok ts2 =>
          addToHandStack (setHand s p { getHand s p with table_stacks := ts2 }) p cardsS
        | .error tsPartial =>
          setHand s p { getHand s p with table_stacks := tsPartial }
      some (pickup_discard_pile s1 p)

/-- `Game.handle_play_from_hand` (after validation): remove the cards from
the (sorted-in-place) hand stack and play them.  A failed removal raises
before any mutation (`none`). -/
def handle_play_from_hand (s : GameState) (p : Nat) (cardsS : List Card) :
    Option GameState :=
  match remove_cards_from_hand_stack (sortCards (getHand s p).hand_stack) cardsS with
  | .error _ => none
  | .ok hand2 =>
    play_cards (setHand s p { getHand s p with hand_stack := hand2 }) p cardsS

/-- A player's reply to a `PLAY` request, after deserialisation: pick up
the discard pile, or play a list of cards.  (The engine itself initiates
face-down plays, and a `SET_TABLE_CARDS` reply mid-game fails
validation.) -/
inductive PlayResponse where
  | pickUp
  | playKnown (cards : List Card)
deriving DecidableEq, Repr

/-- One successful iteration of the turn loop
(`Game.get_valid_play` returning `True` for the player whose turn it is):
validation per `Game.validate_play` followed by
`Game.update_game_state_for_play`.  `none` marks a rejected action or an
engine crash; a rejected action leaves the state unchanged and the same
player is reprompted. -/
def gameStep (s : GameState) (r : PlayResponse) : Option GameState :=
  let p := s.player_turn
  if does_hand_have_known_cards (getHand s p) then
    match r with
    | .pickUp =>
      if 0 < s.discard_pile.length then some (pickup_discard_pile s p) else none
    | .playKnown cards =>
      if 0 < cards.length ∧ are_all_cards_same_value cards = some true then
        if (getHand s p).hand_stack.isEmpty = false then
          match is_play_available (getHand s p) s.last_play cards s.discard_pile with
          | some true => handle_play_from_hand s p (sortCards cards)
          | _ => none
        else
          handle_face_up_play s p cards
      else none
  else
    handle_face_down_play s p

end Screw

namespace Screw

/-! ## Wire updates (`src/game_types.py`, `src/messaging.py`) -/

/-- `UpdateType` from `src/game_types.py`. -/
inductive UpdateType where
  | GAME_INITIATED
  | DECK_DEPLETED
  | PLAYER_WINS
  | YOU_DREW_CARD
  | PLAYER_DREW_CARD
  | YOU_PICKED_UP_DISCARD_PILE
  | PLAYER_PICKED_UP_DISCARD_PILE
  | BURN_DISCARD_PILE
  | PLAY_FROM_HAND
  | PLAY_FROM_TABLE
  | PLAY_FROM_FACEDOWN_SUCCESS
  | PLAY_FROM_FACEDOWN_FAILURE
  | PLAY_FROM_FACEUP_FAILURE
  | SET_TABLE_CARDS
  | PLAY_ACCEPTED
  | INVALID_ACTION
deriving DecidableEq, Repr

/-- `Update` from `src/game_types.py`: every field beyond the type is
optional. -/
structure Update where
  update_type : UpdateType
  player_number : Option Nat := none
  cards : Option String := none
  number_of_players : Option Nat := none
  message : Option String := none
deriving DecidableEq, Repr

/-- `Messaging.add_update_to_players_queues`: queue the update for every
player other than the excluded one, paired with its recipient. -/
def add_update_to_players_queues (number_of_players : Nat) (u : Update)
    (exclude_player : Option Nat) : List (Nat × Update) :=
  ((List.range number_of_players).filter
      (fun q => decide (exclude_player ≠ some q))).map (fun q => (q, u))

/-- `Messaging.play_from_hand`: the played cards, serialised, to every
player except the actor. -/
def play_from_hand_updates (number_of_players actor : Nat) (cards : List Card) :
    List (Nat × Update) :=
  add_update_to_players_queues number_of_players
    { update_type := .PLAY_FROM_HAND, cards := some (serialize_cards cards),
      player_number := some actor } (some actor)

/-- `Messaging.play_from_table`. -/
def play_from_table_updates (number_of_players actor : Nat) (cards : List Card) :
    List (Nat × Update) :=
  add_update_to_players_queues number_of_players
    { update_type := .PLAY_FROM_TABLE, cards := some (serialize_cards cards),
      player_number := some actor } (some actor)

/-- `Messaging.play_from_facedown_success` (a single revealed card). -/
def play_from_facedown_success_updates (number_of_players actor : Nat) (card : Card) :
    List (Nat × Update) :=
  add_update_to_players_queues number_of_players
    { update_type := .PLAY_FROM_FACEDOWN_SUCCESS, cards := some (serialize_card card),
      player_number := some actor } (some actor)

/-- `Messaging.play_from_facedown_failure` (a single revealed card). -/
def play_from_facedown_failure_updates (number_of_players actor : Nat) (card : Card) :
    List (Nat × Update) :=
  add_update_to_players_queues number_of_players
    { update_type := .PLAY_FROM_FACEDOWN_FAILURE, cards := some (serialize_card card),
      player_number := some actor } (some actor)

/-- The update built by `Messaging.player_wins`: only the update type is
set - the winning player's number is not attached. -/
def player_wins_update : Update :=
  { update_type := .PLAYER_WINS }

/-! ## Card deserialisation (`src/utilities.py`, `src/constants.py`) -/

/-- `DECODE_SUIT` keyed by the single character. -/
def decodeSuitChar (ch : Char) : Option Suit :=
  if ch = 'D' then some .diamonds
  else if ch = 'C' then some .clubs
  else if ch = 'H' then some .hearts
  else if ch = 'S' then some .spades
  else none

/-- `DECODE_VALUE` keyed by the single character. -/
def decodeValueChar (ch : Char) : Option Value :=
  if ch = '2' then some .two
  else if ch = '3' then some .three
  else if ch = '4' then some .four
  else if ch = '5' then some .five
  else if ch = '6' then some .six
  else if ch = '7' then some .seven
  else if ch = '8' then some .eight
  else if ch = '9' then some .nine
  else if ch = 'T' then some .ten
  else if ch = 'J' then some .jack
  else if ch = 'Q' then some .queen
  else if ch = 'K' then some .king
  else if ch = 'A' then some .ace
  else none

/-- `deserialize_card`: a two-character suit-then-value code; anything else
raises (`none`). -/
def deserialize_card (code : String) : Option Card :=
  match code.toList with
  | [s, v] =>
    match decodeSuitChar s, decodeValueChar v with
    | some su, some va => some { value := va, suit := su }
    | _, _ => none
  | _ => none

/-- `deserialize_cards`: empty string is the empty stack, otherwise each
comma-separated code must parse. -/
def deserialize_cards (encoded : String) : Option (List Card) :=
  if encoded.length = 0 then some []
  else (encoded.splitOn ",").mapM deserialize_card

/-! ## Player-state tracker (`src/player_state.py`) -/

/-- `Opponent`: belief about another player.  The counters are plain
Python ints and may be driven negative, so they are `Int`. -/
structure Opponent where
  hand_stack : List Card := []
  hand_count_unknown : Int := 0
  table_stack : List Card := []
  table_stacks : Int := 3
deriving DecidableEq, Repr

/-- `PlayerHand`: the tracker's view of its own holdings. -/
structure PlayerHand where
  hand_stack : List Card := []
  table_stack : List Card := []
  table_stacks : Int := 3
deriving DecidableEq, Repr

/-- `PlayerState`: one player's belief state. -/
structure PlayerState where
  player_number : Nat
  number_of_players : Nat
  deck_length : Int
  last_play : Option (List Card)
  discard_pile : List Card
  eliminated_cards : List Card
  win : Option Int
  table_cards_set : Bool
  opponents : List (Nat × Opponent)
  hand : PlayerHand
deriving DecidableEq, Repr

/-- Dictionary lookup `self.opponents[player_number]`; a missing key
raises `KeyError`. -/
def lookupOpponent (opponents : List (Nat × Opponent)) (k : Nat) : Option Opponent :=
  (opponents.find? (fun p => p.1 == k)).map Prod.snd

/-- Write back `self.opponents[player_number] = opp` for an existing key. -/
def setOpponent (opponents : List (Nat × Opponent)) (k : Nat) (opp : Opponent) :
    List (Nat × Opponent) :=
  opponents.map (fun p => if p.1 = k then (k, opp) else p)

/-- `PlayerState.assert_conservation_of_cards`: the belief must account
for all 52 cards. -/
def playerConservation (ps : PlayerState) : Prop :=
  ps.deck_length + ps.discard_pile.length + ps.eliminated_cards.length +
      (ps.hand.hand_stack.length + ps.hand.table_stack.length + ps.hand.table_stacks) +
      ((ps.opponents.map (fun p => (p.2.hand_stack.length : Int) + p.2.table_stack.length +
        p.2.table_stacks + p.2.hand_count_unknown)).sum) = 52

instance (ps : PlayerState) : Decidable (playerConservation ps) := by
  unfold playerConservation
  infer_instance

/-- `PlayerState.build_state` (the `GAME_INITIATED` handler). -/
def build_state (ps : PlayerState) (number_of_players : Nat) : PlayerState :=
  { ps with
    number_of_players := number_of_players
    deck_length := (52 : Int) - 3 * number_of_players
    last_play := none
    discard_pile := []
    eliminated_cards := []
    win := none
    table_cards_set := false
    opponents := ((List.range number_of_players).filter
      (fun i => decide (i ≠ ps.player_number))).map (fun i => (i, {}))
    hand := {} }

/-- `PlayerState.set_player_wins`. -/
def set_player_wins (ps : PlayerState) (player_number : Nat) : PlayerState :=
  if player_number = ps.player_number then { ps with win := some 1 }
  else { ps with win := some 0 }

/-- `PlayerState.remove_cards_from_hand`:
`Stack.get` removes every card matching each requested name. -/
def removeCardsByName (stack : List Card) (cards : List Card) : List Card :=
  stack.filter (fun c => ¬ cards.contains c)

/-- `PlayerState.remove_cards_from_opponent`: remove each known card from
the opponent's known hand; the cards not found there are deducted from
the unknown-card counter.  Returns the remaining stack and that count. -/
def removeFromOpponentLoop (stack : List Card) (cards : List Card) :
    List Card × Nat :=
  match cards with
  | [] => (stack, 0)
  | c :: rest =>
    if stack.contains c then
      removeFromOpponentLoop (stack.filter (fun d => d ≠ c)) rest
    else
      let (s2, n) := removeFromOpponentLoop stack rest
      (s2, n + 1)

/-- The dispatch of `PlayerState.update_state`, given the already
deserialised `cards` field (`none` when the update carried no cards; a
branch that needs them then raises).  An unhandled update type falls
through with no change.  The conservation assertion runs afterwards. -/
def updateStateBranch (ps : PlayerState) (u : Update)
    (ocards : Option (List Card)) : Except String PlayerState :=
  match u.update_type with
  | .GAME_INITIATED =>
    match u.number_of_players with
    | none => .error "assert number_of_players is not None"
    | some n => .ok (build_state ps n)
  | .DECK_DEPLETED =>
    if ps.deck_length = 0 then .ok ps else .error "assert deck_length == 0"
  | .PLAYER_WINS =>
    match u.player_number with
    | none => .error "assert player_number is not None"
    | some pn => .ok (set_player_wins ps pn)
  | .YOU_DREW_CARD =>
    match ocards with
    | none => .error "cards missing"
    | some cs =>
      .ok { ps with deck_length := ps.deck_length - 1,
                    hand := { ps.hand with hand_stack := ps.hand.hand_stack ++ cs } }
  | .PLAYER_DREW_CARD =>
    match u.player_number with
    | none => .error "assert player_number is not None"
    | some pn =>
      match lookupOpponent ps.opponents pn with
      | none => .error "KeyError"
      | some opp =>
        let opp2 := { opp with hand_count_unknown := opp.hand_count_unknown + 1 }
        .ok { ps with deck_length := ps.deck_length - 1,
                      opponents := setOpponent ps.opponents pn opp2 }
  | .YOU_PICKED_UP_DISCARD_PILE =>
    match ocards with
    | none => .error "cards missing"
    | some cs =>
      .ok { ps with hand := { ps.hand with hand_stack := ps.hand.hand_stack ++ cs },
                    discard_pile := [], last_play := none }
  | .PLAYER_PICKED_UP_DISCARD_PILE =>
    match u.player_number with
    | none => .error "assert player_number is not None"
    | some pn =>
      match lookupOpponent ps.opponents pn with
      | none => .error "KeyError"
      | some opp =>
        let opp2 := { opp with hand_stack := opp.hand_stack ++ ps.discard_pile }
        .ok { ps with opponents := setOpponent ps.opponents pn opp2,
                      discard_pile := [], last_play := none }
  | .BURN_DISCARD_PILE =>
    .ok { ps with eliminated_cards := ps.eliminated_cards ++ ps.discard_pile,
                  discard_pile := [], last_play := none }
  | .PLAY_FROM_HAND =>
    match u.player_number, ocards with
    | none, _ => .error "assert player_number is not None"
    | some _, none => .error "assert cards is not None"
    | some pn, some cs =>
      let ps1 := { ps with last_play := some cs,
                           discard_pile := ps.discard_pile ++ cs }
      if pn = ps.player_number then
        .ok { ps1 with hand :=
          { ps1.hand with hand_stack := removeCardsByName ps1.hand.hand_stack cs } }
      else
        match lookupOpponent ps1.opponents pn with
        | none => .error "KeyError"
        | some opp =>
          let (stack2, missing) := removeFromOpponentLoop opp.hand_stack cs
          let opp2 := { opp with hand_stack := stack2,
                                 hand_count_unknown := opp.hand_count_unknown - missing }
          .ok { ps1 with opponents := setOpponent ps1.opponents pn opp2 }
  | .PLAY_FROM_TABLE =>
    match u.player_number, ocards with
    | none, _ => .error "assert player_number is not None"
    | some _, none => .error "assert cards is not None"
    | some pn, some cs =>
      let ps1 := { ps with last_play := some cs,
                           discard_pile := ps.discard_pile ++ cs }
      if pn = ps.player_number then
        .ok { ps1 with hand :=
          { ps1.hand with table_stack := removeCardsByName ps1.hand.table_stack cs } }
      else
        match lookupOpponent ps1.opponents pn with
        | none => .error "KeyError"
        | some opp =>
          let opp2 := { opp with table_stack := removeCardsByName opp.table_stack cs }
          .ok { ps1 with opponents := setOpponent ps1.opponents pn opp2 }
  | .PLAY_FROM_FACEDOWN_SUCCESS =>
    match u.player_number, ocards with
    | none, _ => .error "assert player_number is not None"
    | some _, none => .error "assert cards is not None"
    | some pn, some cs =>
      let ps1 := { ps with last_play := some cs,
                           discard_pile := ps.discard_pile ++ cs }
      if pn = ps.player_number then
        .ok { ps1 with hand := { ps1.hand with table_stacks := ps1.hand.table_stacks - 1 } }
      else
        match lookupOpponent ps1.opponents pn with
        | none => .error "KeyError"
        | some opp =>
          let opp2 := { opp with table_stacks := opp.table_stacks - 1 }
          .ok { ps1 with opponents := setOpponent ps1.opponents pn opp2 }
  | .PLAY_FROM_FACEDOWN_FAILURE =>
    match u.player_number, ocards with
    | none, _ => .error "assert player_number is not None"
    | some _, none => .error "assert cards is not None"
    | some pn, some cs =>
      if pn = ps.player_number then
        let hand2 := { ps.hand with hand_stack := ps.hand.hand_stack ++ cs,
                                    table_stacks := ps.hand.table_stacks - 1 }
        .ok { ps with hand := hand2 }
      else
        match lookupOpponent ps.opponents pn with
        | none => .error "KeyError"
        | some opp =>
          let opp2 := { opp with hand_stack := opp.hand_stack ++ cs,
                                 table_stacks := opp.table_stacks - 1 }
          .ok { ps with opponents := setOpponent ps.opponents pn opp2 }
  | .PLAY_FROM_FACEUP_FAILURE =>
    match u.player_number, ocards with
    | none, _ => .error "assert player_number is not None"
    | some _, none => .error "assert cards is not None"
    | some pn, some cs =>
      if pn = ps.player_number then
        let hand2 := { ps.hand with hand_stack := ps.hand.hand_stack ++ cs,
                                    table_stack := removeCardsByName ps.hand.table_stack cs }
        .ok { ps with hand := hand2 }
      else
        match lookupOpponent ps.opponents pn with
        | none => .error "KeyError"
        | some opp =>
          let opp2 := { opp with hand_stack := opp.hand_stack ++ cs,
                                 table_stack := removeCardsByName opp.table_stack cs }
          .ok { ps with opponents := setOpponent ps.opponents pn opp2 }
  | .SET_TABLE_CARDS =>
    match u.player_number, ocards with
    | none, _ => .error "assert player_number is not None"
    | some _, none => .error "assert cards is not None"
    | some pn, some cs =>
      if pn = ps.player_number then
        let hand2 := { ps.hand with table_stack := ps.hand.table_stack ++ cs,
                                     hand_stack := removeCardsByName ps.hand.hand_stack cs }
        .ok { ps with hand := hand2, table_cards_set := true }
      else
        match lookupOpponent ps.opponents pn with
        | none => .error "KeyError"
        | some opp =>
          let opp2 := { opp with table_stack := opp.table_stack ++ cs,
                                 hand_count_unknown := opp.hand_count_unknown - cs.length }
          .ok { ps with opponents := setOpponent ps.opponents pn opp2 }
  | _ => .ok ps

/-- `PlayerState.update_state`: deserialise the `cards` field when
present (a parse failure raises), dispatch on the update type, then run
the conservation assertion. -/
def update_state (ps : PlayerState) (u : Update) : Except String PlayerState :=
  let dispatched : Except String PlayerState :=
    match u.cards with
    | some str =>
      match deserialize_cards str with
      | none => .error "CardEncodeDecodeException"
      | some cs => updateStateBranch ps u (some cs)
    | none => updateStateBranch ps u none
  match dispatched with
  | .error e => .error e
  | .ok ps2 =>
    if playerConservation ps2 then .ok ps2
    else .error "assert conservation of cards"

end Screw

namespace Screw

/-! ## Setup and reachability (`Game.__init__`, `Game.setup`, `Game.run`) -/

/-- All 52 cards of a pydealer `Deck()` (the order is irrelevant here:
reachability quantifies over permutations produced by `shuffle`). -/
def fullDeck : List Card :=
  [Value.two, .three, .four, .five, .six, .seven, .eight, .nine, .ten,
    .jack, .queen, .king, .ace].flatMap
    (fun v => [Suit.diamonds, .clubs, .hearts, .spades].map
      (fun su => { value := v, suit := su }))

/-- `Game.deal_table_card`: deal one card from the top (end) of the deck
as the bottom card of a new table stack for player `p`; dealing from an
empty deck raises (`none`). -/
def deal_table_card (s : GameState) (p : Nat) : Option GameState :=
  match s.deck.getLast? with
  | none => none
  | some c =>
    some (setHand { s with deck := s.deck.dropLast } p
      { getHand s p with table_stacks :=
          (getHand s p).table_stacks ++ [{ bottom_card := c, top_card := none }] })

/-- `Game.deal_table_cards`: `TABLE_STACKS = 3` rounds over the players. -/
def deal_table_cards (s : GameState) : Option GameState :=
  (List.range 3).foldlM
    (fun s2 _ => (List.range s2.number_of_players).foldlM deal_table_card s2) s

/-- `Game.deal_hand_cards`: `HAND_CARDS + TABLE_STACKS = 6` rounds of
`deal_card` over the players. -/
def deal_hand_cards (s : GameState) : GameState :=
  (List.range 6).foldl
    (fun s2 _ => (List.range s2.number_of_players).foldl deal_card s2) s

/-- `Game.place_table_cards`: assign the selected cards, in order, to the
`top_card` of the player's table stacks. -/
def place_table_cards (table_stacks : List TableStack) (cards : List Card) :
    List TableStack :=
  (List.zipWith (fun ts c => { ts with top_card := some c }) table_stacks cards) ++
    table_stacks.drop cards.length

/-- `Game.receive_table_card_selection` for an already deserialised
selection: it must be three distinct cards held in the hand; the accepted
cards leave the hand and become the face-up tops.  Any failed assertion
re-prompts the player (`none`). -/
def receive_table_card_selection (s : GameState) (p : Nat) (sel : List Card) :
    Option GameState :=
  if sel.Nodup ∧ sel.length = 3 then
    match remove_cards_from_hand_stack (getHand s p).hand_stack sel with
    | .error _ => none
    | .ok hand2 =>
      let newHand : Hand :=
        { hand_stack := hand2,
          table_stacks := place_table_cards (getHand s p).table_stacks sel }
      some (setHand s p newHand)
  else none

/-- `Game.__init__` followed by `Game.setup`, with the shuffle outcome
`deck0` and each player's accepted table-card selection given as inputs:
construct validates `MIN_PLAYERS <= n <= MAX_PLAYERS`, then the table and
hand cards are dealt and every player's selection is applied. -/
def setupGame (n : Nat) (deck0 : List Card) (sels : List (List Card)) :
    Option GameState :=
  if 2 ≤ n ∧ n ≤ 4 then
    let s0 : GameState :=
      { number_of_players := n, deck := deck0, discard_pile := [],
        eliminated_cards := [], player_hands := List.replicate n {},
        last_play := none, player_turn := 0, win := none }
    match deal_table_cards s0 with
    | none => none
    | some s1 =>
      let s2 := deal_hand_cards s1
      (List.range n).foldlM
        (fun s3 p => receive_table_card_selection s3 p (sels.getD p [])) s2
  else none

/-- States of the rules engine reachable through its public operations:
after construction and setup (for some shuffle outcome and accepted
table-card selections), and closed under completed iterations of the
turn loop driven by player responses while the game is not over. -/
inductive Reachable : GameState → Prop where
  | setup (n : Nat) (deck0 : List Card) (sels : List (List Card)) (s : GameState) :
      deck0.Perm fullDeck → setupGame n deck0 sels = some s → Reachable s
  | step (s : GameState) (r : PlayResponse) (s2 : GameState) :
      Reachable s → s.win = none → gameStep s r = some s2 → Reachable s2

end Screw

namespace Screw

/-! ## Concrete game traces

Two fully concrete runs, used to settle the reachability claims: a
shuffle outcome is fixed, the setup is evaluated, and the turn loop is
stepped with explicit player responses. -/

/-- Shorthand card constructor for the concrete decks. -/
def cd (v : Value) (su : Suit) : Card :=
  { value := v, suit := su }

/-- A shuffle outcome for the conservation run (`traceA`): dealing pops
from the end, so the last 18 entries form the table and hand deals. -/
def deckA : List Card :=
  [cd .two .diamonds, cd .two .clubs, cd .two .hearts, cd .two .spades,
   cd .four .spades, cd .five .clubs, cd .five .spades,
   cd .six .diamonds, cd .six .clubs, cd .six .hearts, cd .six .spades,
   cd .seven .diamonds, cd .seven .clubs, cd .seven .spades,
   cd .eight .diamonds, cd .eight .clubs, cd .eight .hearts,
   cd .ten .spades,
   cd .jack .diamonds, cd .jack .clubs, cd .jack .hearts, cd .jack .spades,
   cd .queen .diamonds, cd .queen .clubs, cd .queen .hearts, cd .queen .spades,
   cd .king .diamonds, cd .king .clubs, cd .king .hearts, cd .king .spades,
   cd .ace .diamonds, cd .ace .clubs, cd .ace .hearts, cd .ace .spades,
   cd .four .hearts, cd .nine .diamonds,
   cd .four .clubs, cd .eight .spades,
   cd .four .diamonds, cd .seven .hearts,
   cd .nine .hearts, cd .ten .hearts,
   cd .nine .spades, cd .ten .clubs,
   cd .nine .clubs, cd .ten .diamonds,
   cd .five .diamonds, cd .five .hearts,
   cd .three .spades, cd .three .clubs,
   cd .three .diamonds, cd .three .hearts]

/-- Table-card selections for `traceA`: player 0 lays H7, S8, D9 face up
(keeping the three tens in hand), player 1 lays its three fours. -/
def selsA : List (List Card) :=
  [[cd .seven .hearts, cd .eight .spades, cd .nine .diamonds],
   [cd .four .diamonds, cd .four .clubs, cd .four .hearts]]

/-- The post-setup state of the conservation run. -/
def traceA0 : GameState :=
  (setupGame 2 deckA selsA).getD default

/-- Player 0 burns its three tens one at a time. -/
def traceA1 : GameState :=
  (gameStep traceA0 (.playKnown [cd .ten .diamonds])).getD default

def traceA2 : GameState :=
  (gameStep traceA1 (.playKnown [cd .ten .clubs])).getD default

def traceA3 : GameState :=
  (gameStep traceA2 (.playKnown [cd .ten .hearts])).getD default

/-- With an empty hand, player 0 answers the play request with the
duplicated card string "H7,H7" - both copies of a card that is face up
exactly once. -/
def traceA4 : GameState :=
  (gameStep traceA3 (.playKnown [cd .seven .hearts, cd .seven .hearts])).getD default

/-- A shuffle outcome for the victory run (`traceB`): player 0's table
bottoms are H3, HT, ST; the stacked draws CT, D7, C3, D3 sit right below
the dealt region. -/
def deckB : List Card :=
  [cd .two .diamonds, cd .two .clubs, cd .two .hearts, cd .two .spades,
   cd .five .diamonds, cd .five .clubs, cd .five .hearts, cd .five .spades,
   cd .nine .diamonds, cd .nine .clubs, cd .nine .hearts, cd .nine .spades,
   cd .jack .diamonds, cd .jack .clubs, cd .jack .hearts, cd .jack .spades,
   cd .queen .diamonds, cd .queen .clubs, cd .queen .hearts, cd .queen .spades,
   cd .king .diamonds, cd .king .clubs, cd .king .hearts, cd .king .spades,
   cd .ace .diamonds, cd .ace .clubs, cd .ace .hearts, cd .ace .spades,
   cd .eight .spades, cd .six .clubs,
   cd .three .diamonds, cd .three .clubs,
   cd .seven .diamonds, cd .ten .clubs,
   cd .four .diamonds, cd .six .diamonds,
   cd .four .clubs, cd .six .spades,
   cd .three .spades, cd .six .hearts,
   cd .seven .clubs, cd .four .spades,
   cd .seven .spades, cd .four .hearts,
   cd .seven .hearts, cd .ten .diamonds,
   cd .eight .hearts, cd .ten .spades,
   cd .eight .clubs, cd .ten .hearts,
   cd .eight .diamonds, cd .three .hearts]

/-- Selections for `traceB`: player 0 lays DT, H4, S4 face up (keeping
the three sixes in hand), player 1 lays S3, C4, D4 (keeping the three
sevens). -/
def selsB : List (List Card) :=
  [[cd .ten .diamonds, cd .four .hearts, cd .four .spades],
   [cd .three .spades, cd .four .clubs, cd .four .diamonds]]

def traceB0 : GameState :=
  (setupGame 2 deckB selsB).getD default

/-- Player 0 sheds its hand with a triple of sixes and draws CT. -/
def traceB1 : GameState :=
  (gameStep traceB0 (.playKnown [cd .six .hearts, cd .six .spades, cd .six .diamonds])).getD
    default

/-- Player 1 picks up the three sixes. -/
def traceB2 : GameState :=
  (gameStep traceB1 .pickUp).getD default

/-- Player 0 burns the drawn CT, then the face-up DT. -/
def traceB3 : GameState :=
  (gameStep traceB2 (.playKnown [cd .ten .clubs])).getD default

def traceB4 : GameState :=
  (gameStep traceB3 (.playKnown [cd .ten .diamonds])).getD default

/-- Player 0 plays its face-up pair of fours and draws D7. -/
def traceB5 : GameState :=
  (gameStep traceB4 (.playKnown [cd .four .hearts, cd .four .spades])).getD default

/-- Player 1 answers with its triple of sevens. -/
def traceB6 : GameState :=
  (gameStep traceB5 (.playKnown [cd .seven .hearts, cd .seven .spades, cd .seven .clubs])).getD
    default

/-- Player 0 completes the four sevens with D7: a burn that leaves it
with no hand and no face-up cards while the deck is still full. -/
def traceB7 : GameState :=
  (gameStep traceB6 (.playKnown [cd .seven .diamonds])).getD default

/-- Three forced face-down plays: the revealed ST and HT burn, and the
final H3 wins - after which the engine still deals player 0 a card. -/
def traceB8 : GameState :=
  (gameStep traceB7 .pickUp).getD default

def traceB9 : GameState :=
  (gameStep traceB8 .pickUp).getD default

def traceB10 : GameState :=
  (gameStep traceB9 .pickUp).getD default

end Screw

namespace Screw

/-! ## Specification-side definitions

These follow the wording of the natural-language specification and of the
claims; they are compared with the embedded code in the theorems below. -/

/-- The specification's natural order 3 < 4 < ... < 9 < T < J < Q < K < A < 2
(section 3 of the specification), with 0 as the minimum index. -/
def naturalOrderIndex : Value → Nat
  | .three => 0
  | .four => 1
  | .five => 2
  | .six => 3
  | .seven => 4
  | .eight => 5
  | .nine => 6
  | .ten => 7
  | .jack => 8
  | .queen => 9
  | .king => 10
  | .ace => 11
  | .two => 12

/-- Well-formed `last_play` values: either absent or a non-empty stack
(the engine never stores a present-but-empty stack; indexing one crashes
the helpers). -/
def lastPlayWF (lp : Option (List Card)) : Prop :=
  lp ≠ some []

/-- The trump condition claimed for a single revealed card `c` (claim C2,
from the specification): `last_play` empty, or the natural-order rank of
`c` at least that of `last_play`'s first card, or `c` is a 10 or a 2. -/
def trumpClaimCondition (c : Card) (lp : Option (List Card)) : Prop :=
  lp = none ∨
    (∃ l rest, lp = some (l :: rest) ∧
      naturalOrderIndex l.value ≤ naturalOrderIndex c.value) ∨
    c.value = .ten ∨ c.value = .two

/-- What the embedded trump check actually implements for a single card:
no last play, or a singleton last play whose card is beaten under
pydealer's default comparison (value order 2 < 3 < ... < A, suit order
D < C < H < S breaking equal values); a longer last play never loses to a
single card, and the ranks 10 and 2 get no special treatment. -/
def specTrumpSingle (c : Card) (lp : Option (List Card)) : Prop :=
  lp = none ∨
    ∃ l, lp = some [l] ∧
      (defaultValueRank l.value < defaultValueRank c.value ∨
        (defaultValueRank l.value = defaultValueRank c.value ∧
          defaultSuitRank l.suit ≤ defaultSuitRank c.suit))

/-- The source stack of claim C3: the hand stack when non-empty, else the
face-up table cards. -/
def sourceStack (hand : Hand) : List Card :=
  if hand.hand_stack.isEmpty = false then hand.hand_stack
  else build_face_up_table_stack hand.table_stacks

/-- The cards of rank `v` in a stack. -/
def rankCards (S : List Card) (v : Value) : List Card :=
  S.filter (fun c => c.value = v)

/-- Ranks the claim treats as wild singletons. -/
def specWild (v : Value) : Prop :=
  v = .ten ∨ v = .two

/-- Claim C3's four-in-a-row clause for rank `v`: fewer than four cards of
the rank are held, and together with the top `4 - count` discard cards
they form four cards of one equal rank. -/
def specFourRun (S dp : List Card) (v : Value) : Prop :=
  (rankCards S v).length < 4 ∧
    (rankCards S v ++ lastN (4 - (rankCards S v).length) dp).length = 4 ∧
    ∀ c ∈ rankCards S v ++ lastN (4 - (rankCards S v).length) dp, c.value = v

/-- Claim C3's rank threshold: the rank of the last play, or the minimum
rank when the last play is empty. -/
def specThreshold (ord : Value → Nat) (lp : Option (List Card)) : Nat :=
  match lp with
  | some (l :: _) => ord l.value
  | _ => 0

/-- Claim C3's count: the size of the last play, or 1 when it is empty. -/
def specCount (lp : Option (List Card)) : Nat :=
  match lp with
  | some (l :: rest) => (l :: rest).length
  | _ => 1

/-- Claim C3's available-plays set, as a membership predicate on the
serialised play, parameterised by the rank order `ord`: for each rank `v`
present in the source stack, either every wild singleton of that rank; or
else (fewer than four held) the full rank group when it completes four of
a kind with the top discard cards; or else every `k`-subset of the rank's
cards for `k` from the last-play count up to the held count, provided the
rank meets the threshold and the count suffices. -/
def specAvailablePlays (ord : Value → Nat) (S : List Card)
    (lp : Option (List Card)) (dp : List Card) (s : String) : Prop :=
  ∃ v, (∃ c ∈ S, c.value = v) ∧
    ((specWild v ∧ ∃ c ∈ S, c.value = v ∧ s = serialize_card c) ∨
      (¬ specWild v ∧ specFourRun S dp v ∧
        s = serialize_cards (sortCards (rankCards S v))) ∨
      (¬ specWild v ∧ ¬ specFourRun S dp v ∧
        specThreshold ord lp ≤ ord v ∧ specCount lp ≤ (rankCards S v).length ∧
        ∃ k, specCount lp ≤ k ∧ k ≤ (rankCards S v).length ∧
          ∃ sub, sub.Sublist (rankCards S v) ∧ sub.length = k ∧
            s = serialize_cards (sortCards sub)))

/-- Claim C8's skip condition, in the claim's words: the stored last play
was non-empty, its rank equals the rank just played, and that rank is
not 2. -/
def specSkip (stored : Option (List Card)) (cards : List Card) : Prop :=
  ∃ l lrest c crest, stored = some (l :: lrest) ∧ cards = c :: crest ∧
    l.value = c.value ∧ c.value ≠ .two

/-- All cards of a list share one rank (claim C7's wording for the last
four discard cards). -/
def allShareRank (l : List Card) : Prop :=
  ∀ c ∈ l, ∀ c2 ∈ l, c.value = c2.value

/-! ## Concrete states used by witnesses and counterexamples -/

/-- Table stacks holding face-up H7 and S9 (for the face-up removal
counterexample). -/
def tableC6 : List TableStack :=
  [{ bottom_card := cd .two .hearts, top_card := some (cd .seven .hearts) },
   { bottom_card := cd .five .diamonds, top_card := some (cd .nine .spades) }]

/-- `tableC6` after the partial removal: the H7 top has been cleared even
though the operation raises. -/
def tableC6After : List TableStack :=
  [{ bottom_card := cd .two .hearts, top_card := none },
   { bottom_card := cd .five .diamonds, top_card := some (cd .nine .spades) }]

/-- A two-player state about to burn: last play HT atop a discard pile of
two cards. -/
def burnWitnessState : GameState :=
  { number_of_players := 2, deck := [cd .ace .clubs],
    discard_pile := [cd .nine .hearts, cd .ten .hearts],
    eliminated_cards := [],
    player_hands := [{ table_stacks := [{ bottom_card := cd .king .spades }] }, {}],
    last_play := some [cd .ten .hearts], player_turn := 0, win := none }

/-- A two-player state for the turn-advance witness: D5 is about to be
played over a stored last play of H5. -/
def skipWitnessState : GameState :=
  { number_of_players := 2, deck := [],
    discard_pile := [cd .five .hearts], eliminated_cards := [],
    player_hands := [{ table_stacks := [{ bottom_card := cd .king .spades }] }, {}],
    last_play := some [cd .five .hearts], player_turn := 0, win := none }

/-- A two-player state for the burn-frame witness: a single HT is about
to be played. -/
def burnFrameWitnessState : GameState :=
  { number_of_players := 2, deck := [cd .ace .clubs],
    discard_pile := [cd .nine .hearts], eliminated_cards := [],
    player_hands := [{ table_stacks := [{ bottom_card := cd .king .spades }] }, {}],
    last_play := some [cd .nine .hearts], player_turn := 0, win := none }

/-- The hand holding a single H3 (for the C3 counterexample and witness). -/
def handC3 : Hand :=
  { table_stacks := [], hand_stack := [cd .three .hearts] }

end Screw

namespace Screw

/-! ## Helper lemmas -/

theorem sortCards_perm (l : List Card) : (sortCards l).Perm l :=
  List.perm_insertionSort cardLE l

theorem sortCards_sorted (l : List Card) : List.Sorted cardLE (sortCards l) :=
  List.sorted_insertionSort cardLE l

theorem sortCards_eq_of_perm {l₁ l₂ : List Card} (h : l₁.Perm l₂) :
    sortCards l₁ = sortCards l₂ :=
  List.eq_of_perm_of_sorted ((sortCards_perm l₁).trans (h.trans (sortCards_perm l₂).symm))
    (sortCards_sorted l₁) (sortCards_sorted l₂)

theorem dedup_length_one {α : Type} [DecidableEq α] (xs : List α) :
    xs.dedup.length = 1 ↔ xs ≠ [] ∧ ∀ a ∈ xs, ∀ b ∈ xs, a = b := by
  rw [List.length_eq_one]
  constructor
  · rintro ⟨a, ha⟩
    have hmem : ∀ b ∈ xs, b = a := by
      intro b hb
      have : b ∈ xs.dedup := List.mem_dedup.mpr hb
      rw [ha] at this
      simpa using this
    constructor
    · intro hnil
      rw [hnil] at ha
      simp at ha
    · intro b hb c hc
      rw [hmem b hb, hmem c hc]
  · rintro ⟨hne, hall⟩
    obtain ⟨x, xs2, rfl⟩ := List.exists_cons_of_ne_nil hne
    refine ⟨x, ?_⟩
    have hx : x ∈ (x :: xs2).dedup := List.mem_dedup.mpr (by simp)
    have hsub : ∀ b ∈ (x :: xs2).dedup, b = x := by
      intro b hb
      exact hall b (List.mem_dedup.mp hb) x (by simp)
    have hnodup := List.nodup_dedup (x :: xs2)
    match hd : (x :: xs2).dedup with
    | [] => rw [hd] at hx; simp at hx
    | [b] =>
      rw [hd] at hsub
      have := hsub b (by simp)
      rw [this]
    | b :: c :: rest =>
      rw [hd] at hsub hnodup
      have hb := hsub b (by simp)
      have hc := hsub c (by simp)
      rw [List.nodup_cons] at hnodup
      exact absurd (by rw [hb, hc] : b = c) (fun hbc => hnodup.1 (by rw [hbc]; simp))

theorem allSame_some_true_iff (l : List Card) :
    are_all_cards_same_value l = some true ↔ l ≠ [] ∧ allShareRank l := by
  unfold are_all_cards_same_value allShareRank
  match l with
  | [] => simp
  | x :: xs =>
    rw [if_neg (by simp)]
    rw [Option.some_inj, decide_eq_true_iff, dedup_length_one]
    simp only [List.mem_map, ne_eq, List.map_eq_nil_iff]
    constructor
    · rintro ⟨-, hall⟩
      refine ⟨by simp, ?_⟩
      intro c hc c2 hc2
      exact hall c.value ⟨c, hc, rfl⟩ c2.value ⟨c2, hc2, rfl⟩
    · rintro ⟨-, hall⟩
      refine ⟨by simp, ?_⟩
      rintro a ⟨c, hc, rfl⟩ b ⟨c2, hc2, rfl⟩
      exact hall c hc c2 hc2

theorem lastN_length (n : Nat) (l : List Card) : (lastN n l).length = min n l.length := by
  unfold lastN
  rw [List.length_drop]
  omega

theorem mem_add_update_iff (n : Nat) (u : Update) (ex : Option Nat) (q : Nat)
    (w : Update) :
    (q, w) ∈ add_update_to_players_queues n u ex ↔ (q < n ∧ ex ≠ some q ∧ w = u) := by
  unfold add_update_to_players_queues
  simp only [List.mem_map, List.mem_filter, List.mem_range, Prod.mk.injEq,
    decide_eq_true_iff]
  constructor
  · rintro ⟨q2, ⟨hlt, hex⟩, rfl, rfl⟩
    exact ⟨hlt, hex, rfl⟩
  · rintro ⟨hlt, hex, rfl⟩
    exact ⟨q, ⟨hlt, hex⟩, rfl, rfl⟩

/-! ## Claim theorems -/

/-- C10: the `PLAYER_WINS` update built by `Messaging.player_wins` carries
no `player_number`, and `PlayerState.update_state` applied to it fails its
`assert player_number is not None` for every tracker state, so
`set_player_wins` is never reached and no tracker records the winner. -/
theorem c10_player_wins_update_unprocessable :
    player_wins_update.player_number = none ∧
      ∀ ps : PlayerState, update_state ps player_wins_update =
        .error "assert player_number is not None" :=
  ⟨rfl, fun _ => rfl⟩

/-- C6 counterexample: requesting the same face-up card twice makes
`remove_cards_from_face_up` clear its top and then raise, leaving the
table stacks mutated - a partial removal, contradicting the claimed
all-or-nothing behaviour. -/
theorem c6_partial_removal :
    remove_cards_from_face_up tableC6 [cd .seven .hearts, cd .seven .hearts] =
        Except.error tableC6After ∧
      tableC6After ≠ tableC6 := by
  constructor
  · rfl
  · decide

/-- C5 counterexample: in a two-player game, a `PLAY_FROM_HAND` event for
acting player 0 is queued for player 1 only - the acting player receives
nothing, contradicting delivery to every player including the actor. -/
theorem c5_actor_excluded :
    play_from_hand_updates 2 0 [cd .ace .spades] =
      [(1, { update_type := .PLAY_FROM_HAND,
             cards := some (serialize_cards [cd .ace .spades]),
             player_number := some 0 })] := by
  rfl

/-- C5 amended: every play event - `PLAY_FROM_HAND`, `PLAY_FROM_TABLE`,
`PLAY_FROM_FACEDOWN_SUCCESS`, `PLAY_FROM_FACEDOWN_FAILURE` - carries the
serialised played cards and the actor's number and is delivered exactly
to every player other than the acting player. -/
theorem c5_play_events_delivery (n actor : Nat) (cards : List Card) (card : Card) :
    (∀ q w, (q, w) ∈ play_from_hand_updates n actor cards ↔
      (q < n ∧ q ≠ actor ∧
        w = { update_type := .PLAY_FROM_HAND,
              cards := some (serialize_cards cards), player_number := some actor })) ∧
    (∀ q w, (q, w) ∈ play_from_table_updates n actor cards ↔
      (q < n ∧ q ≠ actor ∧
        w = { update_type := .PLAY_FROM_TABLE,
              cards := some (serialize_cards cards), player_number := some actor })) ∧
    (∀ q w, (q, w) ∈ play_from_facedown_success_updates n actor card ↔
      (q < n ∧ q ≠ actor ∧
        w = { update_type := .PLAY_FROM_FACEDOWN_SUCCESS,
              cards := some (serialize_card card), player_number := some actor })) ∧
    (∀ q w, (q, w) ∈ play_from_facedown_failure_updates n actor card ↔
      (q < n ∧ q ≠ actor ∧
        w = { update_type := .PLAY_FROM_FACEDOWN_FAILURE,
              cards := some (serialize_card card), player_number := some actor })) := by
  refine ⟨?_, ?_, ?_, ?_⟩ <;>
    · intro q w
      simp only [play_from_hand_updates, play_from_table_updates,
        play_from_facedown_success_updates, play_from_facedown_failure_updates]
      rw [mem_add_update_iff]
      simp [ne_comm]

/-- C2 counterexample: a revealed 10 of Spades does not trump a last play
of the Jack of Spades in the code (pydealer order, no special 10), while
the claimed trump relation holds there (rank 10 is special). -/
theorem c2_ten_not_special :
    does_play_trump_last_play [cd .ten .spades] (some [cd .jack .spades]) =
        some false ∧
      trumpClaimCondition (cd .ten .spades) (some [cd .jack .spades]) ∧
      ¬ (does_play_trump_last_play [cd .ten .spades] (some [cd .jack .spades]) =
          some true ↔
        trumpClaimCondition (cd .ten .spades) (some [cd .jack .spades])) := by
  refine ⟨rfl, Or.inr (Or.inr (Or.inl rfl)), ?_⟩
  intro hiff
  have hcode := hiff.mpr (Or.inr (Or.inr (Or.inl rfl)))
  exact absurd hcode (by decide)

/-- C2 amended: for a single revealed card, the trump check returns true
exactly when the last play is absent, or is a singleton whose card is
beaten under pydealer's default value-then-suit comparison; 10 and 2 are
not special and a multi-card last play is never trumped. -/
theorem c2_trump_single (c : Card) (lp : Option (List Card)) (h : lastPlayWF lp) :
    does_play_trump_last_play [c] lp = some true ↔ specTrumpSingle c lp := by
  match lp with
  | none => simp [does_play_trump_last_play, specTrumpSingle]
  | some [] => exact absurd rfl h
  | some [l] =>
    have hlen : ¬ ([c].length < [l].length) := by simp
    simp only [does_play_trump_last_play, if_neg hlen]
    show some (cardGe c l) = some true ↔ _
    rw [Option.some_inj]
    unfold specTrumpSingle cardGe
    simp only [reduceCtorEq, false_or, Option.some_inj]
    constructor
    · intro hb
      refine ⟨l, rfl, ?_⟩
      rcases Bool.or_eq_true_iff.mp hb with h1 | h2
      · exact Or.inl (of_decide_eq_true h1)
      · rcases Bool.and_eq_true_iff.mp h2 with ⟨hle, hs⟩
        rcases Nat.eq_or_lt_of_le (of_decide_eq_true hle) with heq | hlt
        · exact Or.inr ⟨heq, of_decide_eq_true hs⟩
        · exact Or.inl hlt
    · rintro ⟨l2, hl2, hcond⟩
      have hll : l = l2 := by simpa using hl2
      subst hll
      rcases hcond with hlt | ⟨heq, hs⟩
      · exact Bool.or_eq_true_iff.mpr (Or.inl (decide_eq_true hlt))
      · exact Bool.or_eq_true_iff.mpr (Or.inr (Bool.and_eq_true_iff.mpr
          ⟨decide_eq_true (Nat.le_of_eq heq), decide_eq_true hs⟩))
  | some (l :: l2 :: rest) =>
    have hlen : [c].length < (l :: l2 :: rest).length := by
      simp [List.length_cons]
    simp only [does_play_trump_last_play, if_pos hlen, specTrumpSingle]
    simp

/-- C2 amended witness: instantiated at the 7 of Hearts over a singleton
7 of Spades (the suit tiebreak makes the code reject it). -/
theorem c2_trump_single_witness :
    lastPlayWF (some [cd .seven .spades]) ∧
      (does_play_trump_last_play [cd .seven .hearts] (some [cd .seven .spades]) =
          some true ↔
        specTrumpSingle (cd .seven .hearts) (some [cd .seven .spades])) :=
  ⟨by simp [lastPlayWF], c2_trump_single (cd .seven .hearts) (some [cd .seven .spades])
    (by simp [lastPlayWF])⟩

end Screw

namespace Screw

theorem playCardsMid_fields (s : GameState) (p : Nat) (cards : List Card) :
    (playCardsMid s p cards).deck = s.deck ∧
      (playCardsMid s p cards).player_turn = s.player_turn ∧
      (playCardsMid s p cards).number_of_players = s.number_of_players ∧
      (playCardsMid s p cards).player_hands = s.player_hands ∧
      (playCardsMid s p cards).eliminated_cards = s.eliminated_cards ∧
      (playCardsMid s p cards).discard_pile = s.discard_pile ++ cards := by
  unfold playCardsMid
  by_cases h : check_victory
      { s with last_play := some cards, discard_pile := s.discard_pile ++ cards } p = true
  · simp [h]
  · simp [h]

theorem deal_card_fields (s : GameState) (p : Nat) :
    (deal_card s p).player_turn = s.player_turn ∧
      (deal_card s p).number_of_players = s.number_of_players := by
  unfold deal_card addToHandStack setHand
  cases s.deck.getLast? <;> simp

theorem check_for_burn_cons (s : GameState) (c0 : Card) (rest : List Card)
    (h : s.last_play = some (c0 :: rest)) :
    check_for_burn s =
      if c0.value = .ten then some true
      else
        some (decide (4 ≤ s.discard_pile.length) && decide (c0.value ≠ .two) &&
          (are_all_cards_same_value (lastN 4 s.discard_pile) == some true)) := by
  unfold check_for_burn
  rw [h]

theorem skipCondition_iff (stored : Option (List Card)) (cards : List Card) :
    skipCondition stored cards = true ↔ specSkip stored cards := by
  unfold skipCondition specSkip
  match stored, cards with
  | none, _ => simp
  | some [], _ => simp
  | some (l :: lrest), [] => simp
  | some (l :: lrest), c :: crest =>
    simp only [Bool.and_eq_true, decide_eq_true_iff, Option.some_inj, List.cons.injEq]
    constructor
    · rintro ⟨h1, h2⟩
      exact ⟨l, lrest, c, crest, ⟨rfl, rfl⟩, ⟨rfl, rfl⟩, h1, h2⟩
    · rintro ⟨l2, lrest2, c2, crest2, ⟨rfl, rfl⟩, ⟨rfl, rfl⟩, h1, h2⟩
      exact ⟨h1, h2⟩

/-- C7: with the played equal-rank set `C` recorded as `last_play` and
appended to the discard pile, the burn check returns true exactly when
the played rank is 10, or the discard pile holds at least four cards, the
rank is not 2, and the last four discard cards share one rank; in
particular every play of rank 10 burns. -/
theorem c7_burn_iff (s : GameState) (c0 : Card) (rest d : List Card)
    (hlp : s.last_play = some (c0 :: rest))
    (_hsame : are_all_cards_same_value (c0 :: rest) = some true)
    (_happ : s.discard_pile = d ++ (c0 :: rest)) :
    (check_for_burn s).isSome ∧
      (check_for_burn s = some true ↔
        (c0.value = .ten ∨ (4 ≤ s.discard_pile.length ∧ c0.value ≠ .two ∧
          allShareRank (lastN 4 s.discard_pile)))) := by
  rw [check_for_burn_cons s c0 rest hlp]
  by_cases hten : c0.value = .ten
  · rw [if_pos hten]
    exact ⟨rfl, by simp [hten]⟩
  · rw [if_neg hten]
    refine ⟨rfl, ?_⟩
    rw [Option.some_inj]
    constructor
    · intro hb
      simp only [Bool.and_eq_true, decide_eq_true_iff, beq_iff_eq] at hb
      obtain ⟨⟨h4, hn2⟩, hall⟩ := hb
      exact Or.inr ⟨h4, hn2, ((allSame_some_true_iff _).mp hall).2⟩
    · rintro (hc | ⟨h4, hn2, hall⟩)
      · exact absurd hc hten
      · have hne : lastN 4 s.discard_pile ≠ [] := by
          have hlen := lastN_length 4 s.discard_pile
          intro hnil
          rw [hnil] at hlen
          simp at hlen
          omega
        simp only [Bool.and_eq_true, decide_eq_true_iff, beq_iff_eq]
        exact ⟨⟨h4, hn2⟩, (allSame_some_true_iff _).mpr ⟨hne, hall⟩⟩

/-- C7 witness: a play of the 10 of Hearts onto a one-card discard pile. -/
theorem c7_burn_iff_witness :
    burnWitnessState.last_play = some (cd .ten .hearts :: []) ∧
      are_all_cards_same_value (cd .ten .hearts :: []) = some true ∧
      burnWitnessState.discard_pile = [cd .nine .hearts] ++ (cd .ten .hearts :: []) ∧
      ((check_for_burn burnWitnessState).isSome ∧
        (check_for_burn burnWitnessState = some true ↔
          ((cd .ten .hearts).value = .ten ∨
            (4 ≤ burnWitnessState.discard_pile.length ∧
              (cd .ten .hearts).value ≠ .two ∧
              allShareRank (lastN 4 burnWitnessState.discard_pile))))) :=
  ⟨rfl, by decide, rfl,
    c7_burn_iff burnWitnessState (cd .ten .hearts) [] [cd .nine .hearts] rfl (by decide) rfl⟩

/-- C8: on a play that does not trigger a burn, the turn advances by 2
modulo the player count exactly when the stored last play was non-empty,
of the rank just played, and that rank is not 2; in every other case it
advances by 1. -/
theorem c8_turn_advance (s : GameState) (p : Nat) (cards : List Card) (s2 : GameState)
    (hplay : play_cards s p cards = some s2)
    (hnoburn : check_for_burn (playCardsMid s p cards) = some false) :
    (specSkip s.last_play cards →
        s2.player_turn = (s.player_turn + 2) % s.number_of_players) ∧
      (¬ specSkip s.last_play cards →
        s2.player_turn = (s.player_turn + 1) % s.number_of_players) := by
  unfold play_cards at hplay
  simp only [hnoburn] at hplay
  have hs2 := Option.some_inj.mp hplay
  subst hs2
  have hmid := playCardsMid_fields s p cards
  have hdeal := deal_card_fields (playCardsMid s p cards) p
  have hturn : (update_turn (deal_card (playCardsMid s p cards) p)
      (if skipCondition s.last_play cards then 2 else 1)).player_turn =
      (s.player_turn + (if skipCondition s.last_play cards then 2 else 1)) %
        s.number_of_players := by
    unfold update_turn
    simp [hdeal.1, hdeal.2, hmid.2.1, hmid.2.2.1]
  constructor
  · intro hsk
    rw [hturn, if_pos ((skipCondition_iff s.last_play cards).mpr hsk)]
  · intro hsk
    rw [hturn, if_neg (fun hb => hsk ((skipCondition_iff s.last_play cards).mp hb))]

/-- C8 witness: D5 played over a stored last play of H5 in a two-player
game - the rank matches and is not 2, so the turn advances by two,
returning to player 0. -/
theorem c8_turn_advance_witness :
    play_cards skipWitnessState 0 [cd .five .diamonds] =
        some ((play_cards skipWitnessState 0 [cd .five .diamonds]).getD default) ∧
      check_for_burn (playCardsMid skipWitnessState 0 [cd .five .diamonds]) =
        some false ∧
      ((specSkip skipWitnessState.last_play [cd .five .diamonds] →
          ((play_cards skipWitnessState 0 [cd .five .diamonds]).getD
              default).player_turn =
            (skipWitnessState.player_turn + 2) % skipWitnessState.number_of_players) ∧
        (¬ specSkip skipWitnessState.last_play [cd .five .diamonds] →
          ((play_cards skipWitnessState 0 [cd .five .diamonds]).getD
              default).player_turn =
            (skipWitnessState.player_turn + 1) % skipWitnessState.number_of_players)) :=
  ⟨rfl, rfl, c8_turn_advance skipWitnessState 0 [cd .five .diamonds] _ rfl rfl⟩

/-- C9: on a play for which the burn predicate holds, the deck, the turn
and every player's cards are unchanged - no card is drawn and the same
player acts again - while the discard pile (including the played cards)
moves to the eliminated cards and the last play resets. -/
theorem c9_burn_frame (s : GameState) (p : Nat) (cards : List Card) (s2 : GameState)
    (hplay : play_cards s p cards = some s2)
    (hburn : check_for_burn (playCardsMid s p cards) = some true) :
    s2.deck = s.deck ∧ s2.player_turn = s.player_turn ∧
      s2.player_hands = s.player_hands ∧ s2.discard_pile = [] ∧
      s2.last_play = none ∧
      s2.eliminated_cards = s.eliminated_cards ++ (s.discard_pile ++ cards) := by
  unfold play_cards at hplay
  simp only [hburn] at hplay
  have hs2 := Option.some_inj.mp hplay
  subst hs2
  have hmid := playCardsMid_fields s p cards
  refine ⟨hmid.1, hmid.2.1, hmid.2.2.2.1, rfl, rfl, ?_⟩
  show (playCardsMid s p cards).eliminated_cards ++
      (playCardsMid s p cards).discard_pile = _
  rw [hmid.2.2.2.2.1, hmid.2.2.2.2.2]

/-- C9 witness: a burning play of the 10 of Hearts; the deck, turn and
hands are untouched and the discard pile is eliminated. -/
theorem c9_burn_frame_witness :
    play_cards burnFrameWitnessState 0 [cd .ten .hearts] =
        some ((play_cards burnFrameWitnessState 0 [cd .ten .hearts]).getD default) ∧
      check_for_burn (playCardsMid burnFrameWitnessState 0 [cd .ten .hearts]) =
        some true ∧
      (((play_cards burnFrameWitnessState 0 [cd .ten .hearts]).getD default).deck =
          burnFrameWitnessState.deck ∧
        ((play_cards burnFrameWitnessState 0 [cd .ten .hearts]).getD
            default).player_turn = burnFrameWitnessState.player_turn ∧
        ((play_cards burnFrameWitnessState 0 [cd .ten .hearts]).getD
            default).player_hands = burnFrameWitnessState.player_hands ∧
        ((play_cards burnFrameWitnessState 0 [cd .ten .hearts]).getD
            default).discard_pile = [] ∧
        ((play_cards burnFrameWitnessState 0 [cd .ten .hearts]).getD
            default).last_play = none ∧
        ((play_cards burnFrameWitnessState 0 [cd .ten .hearts]).getD
            default).eliminated_cards =
          burnFrameWitnessState.eliminated_cards ++
            (burnFrameWitnessState.discard_pile ++ [cd .ten .hearts])) :=
  ⟨rfl, rfl, c9_burn_frame burnFrameWitnessState 0 [cd .ten .hearts] _ rfl rfl⟩

end Screw

namespace Screw

/-- C1: card conservation is violated on a reachable state.  After player
0 burns its three tens and then, with an empty hand, answers the play
request with the duplicated card string "H7,H7" (H7 being face up once),
the face-up removal clears the card, raises, and the swallowed exception
completes the iteration with only 51 cards left in play - the engine's
own conservation assertion then aborts the game. -/
theorem c1_conservation_violated :
    Reachable traceA4 ∧ totalCards traceA4 = 51 := by
  refine ⟨?_, by decide⟩
  have h0 : Reachable traceA0 :=
    Reachable.setup 2 deckA selsA traceA0 (by decide) rfl
  have h1 : Reachable traceA1 :=
    Reachable.step traceA0 (.playKnown [cd .ten .diamonds]) traceA1 h0 rfl rfl
  have h2 : Reachable traceA2 :=
    Reachable.step traceA1 (.playKnown [cd .ten .clubs]) traceA2 h1 rfl rfl
  have h3 : Reachable traceA3 :=
    Reachable.step traceA2 (.playKnown [cd .ten .hearts]) traceA3 h2 rfl rfl
  exact Reachable.step traceA3
    (.playKnown [cd .seven .hearts, cd .seven .hearts]) traceA4 h3 rfl rfl

end Screw

namespace Screw

set_option maxRecDepth 40000 in
/-- C4: a reachable terminal state in which the winner holds a card.
Player 0 wins with its final face-down reveal while the deck is still
non-empty; `play_cards` sets `win` and then still deals player 0 a card,
so the turn loop stops with the winner holding one card - contradicting
the claim that the winner ends with zero cards. -/
theorem c4_winner_holds_a_card :
    Reachable traceB10 ∧ traceB10.win = some 0 ∧
      count_player_cards (getHand traceB10 0) = 1 := by
  refine ⟨?_, rfl, rfl⟩
  have h0 : Reachable traceB0 :=
    Reachable.setup 2 deckB selsB traceB0 (by decide) rfl
  have h1 : Reachable traceB1 :=
    Reachable.step traceB0
      (.playKnown [cd .six .hearts, cd .six .spades, cd .six .diamonds]) traceB1 h0 rfl rfl
  have h2 : Reachable traceB2 :=
    Reachable.step traceB1 .pickUp traceB2 h1 rfl rfl
  have h3 : Reachable traceB3 :=
    Reachable.step traceB2 (.playKnown [cd .ten .clubs]) traceB3 h2 rfl rfl
  have h4 : Reachable traceB4 :=
    Reachable.step traceB3 (.playKnown [cd .ten .diamonds]) traceB4 h3 rfl rfl
  have h5 : Reachable traceB5 :=
    Reachable.step traceB4
      (.playKnown [cd .four .hearts, cd .four .spades]) traceB5 h4 rfl rfl
  have h6 : Reachable traceB6 :=
    Reachable.step traceB5
      (.playKnown [cd .seven .hearts, cd .seven .spades, cd .seven .clubs]) traceB6 h5 rfl rfl
  have h7 : Reachable traceB7 :=
    Reachable.step traceB6 (.playKnown [cd .seven .diamonds]) traceB7 h6 rfl rfl
  have h8 : Reachable traceB8 :=
    Reachable.step traceB7 .pickUp traceB8 h7 rfl rfl
  have h9 : Reachable traceB9 :=
    Reachable.step traceB8 .pickUp traceB9 h8 rfl rfl
  exact Reachable.step traceB9 .pickUp traceB10 h9 rfl rfl

end Screw

namespace Screw

theorem allShareRank_iff_all_eq {l : List Card} {v : Value} {c0 : Card}
    (hc0 : c0 ∈ l) (hv : c0.value = v) :
    allShareRank l ↔ ∀ c ∈ l, c.value = v := by
  unfold allShareRank
  constructor
  · intro h c hc
    rw [← hv]
    exact h c hc c0 hc0
  · intro h c hc c2 hc2
    rw [h c hc, h c2 hc2]

theorem mem_sorted_filter_iff (S : List Card) (v : Value) (c : Card) :
    c ∈ (sortCards S).filter (fun c2 => c2.value = v) ↔ (c ∈ S ∧ c.value = v) := by
  rw [List.mem_filter, (sortCards_perm S).mem_iff, decide_eq_true_iff]

theorem fourRunCond_iff (S dp : List Card) (v : Value)
    (hne : (sortCards S).filter (fun c => c.value = v) ≠ []) :
    (((sortCards S).filter (fun c => c.value = v)).length < 4 ∧
        4 - ((sortCards S).filter (fun c => c.value = v)).length ≤ dp.length ∧
        are_all_cards_same_value ((sortCards S).filter (fun c => c.value = v) ++
          lastN (4 - ((sortCards S).filter (fun c => c.value = v)).length) dp) =
          some true) ↔
      specFourRun S dp v := by
  have hperm : ((sortCards S).filter (fun c => c.value = v)).Perm (rankCards S v) :=
    (sortCards_perm S).filter _
  have hlen := hperm.length_eq
  have hxlen := lastN_length (4 - (rankCards S v).length) dp
  obtain ⟨g0, hg0G⟩ : ∃ g0, g0 ∈ (sortCards S).filter (fun c => c.value = v) := by
    match hG : (sortCards S).filter (fun c => c.value = v) with
    | [] => exact absurd hG hne
    | g :: gs => exact ⟨g, by rw [hG]; simp⟩
  have hg0v : g0.value = v := of_decide_eq_true (List.mem_filter.mp hg0G).2
  have hGv : ∀ c ∈ (sortCards S).filter (fun c2 => c2.value = v), c.value = v :=
    fun c hc => of_decide_eq_true (List.mem_filter.mp hc).2
  have hRv : ∀ c ∈ rankCards S v, c.value = v :=
    fun c hc => of_decide_eq_true (List.mem_filter.mp hc).2
  unfold specFourRun
  rw [hlen]
  constructor
  · rintro ⟨h1, h2, h3⟩
    have hall := (allSame_some_true_iff _).mp h3
    have hiff := @allShareRank_iff_all_eq
      ((sortCards S).filter (fun c => c.value = v) ++
        lastN (4 - (rankCards S v).length) dp) v g0
      (List.mem_append_left _ hg0G) hg0v
    have hX : ∀ c ∈ lastN (4 - (rankCards S v).length) dp, c.value = v :=
      fun c hc => (hiff.mp hall.2) c (List.mem_append_right _ hc)
    refine ⟨h1, ?_, ?_⟩
    · rw [List.length_append, hxlen]
      omega
    · intro c hc
      rcases List.mem_append.mp hc with hcR | hcX
      · exact hRv c hcR
      · exact hX c hcX
  · rintro ⟨h1, h2, h3⟩
    have hX : ∀ c ∈ lastN (4 - (rankCards S v).length) dp, c.value = v :=
      fun c hc => h3 c (List.mem_append_right _ hc)
    refine ⟨h1, ?_, ?_⟩
    · rw [List.length_append, hxlen] at h2
      omega
    · apply (allSame_some_true_iff _).mpr
      refine ⟨?_, ?_⟩
      · intro hnil
        exact hne (List.append_eq_nil.mp hnil).1
      · have hval : ∀ c ∈ (sortCards S).filter (fun c2 => c2.value = v) ++
            lastN (4 - (rankCards S v).length) dp, c.value = v := by
          intro c hc
          rcases List.mem_append.mp hc with hcG | hcX
          · exact hGv c hcG
          · exact hX c hcX
        intro c hc c2 hc2
        rw [hval c hc, hval c2 hc2]

theorem mem_subset_plays_iff (G R : List Card) (hperm : G.Perm R) (lpc : Nat)
    (s : String) :
    (s ∈ (List.range' lpc (G.length + 1 - lpc)).flatMap
        (fun k => (List.sublistsLen k G).map
          (fun comb => serialize_cards (sortCards comb)))) ↔
      (∃ k, lpc ≤ k ∧ k ≤ G.length ∧ ∃ sub, sub.Sublist R ∧ sub.length = k ∧
        s = serialize_cards (sortCards sub)) := by
  simp only [List.mem_flatMap, List.mem_map, List.mem_range'_1, List.mem_sublistsLen]
  constructor
  · rintro ⟨k, ⟨hk1, hk2⟩, comb, ⟨hsub, hklen⟩, rfl⟩
    have hsp : comb.Subperm R := hperm.subperm_left.mp hsub.subperm
    obtain ⟨sub, hsubperm, hsubR⟩ := hsp
    refine ⟨k, hk1, by omega, sub, hsubR, by rw [hsubperm.length_eq, hklen], ?_⟩
    rw [sortCards_eq_of_perm hsubperm]
  · rintro ⟨k, hk1, hk2, sub, hsubR, hklen, rfl⟩
    have hsp : sub.Subperm G := hperm.symm.subperm_left.mp hsubR.subperm
    obtain ⟨comb, hcp, hcG⟩ := hsp
    refine ⟨k, ⟨hk1, by omega⟩, comb, ⟨hcG, by rw [hcp.length_eq, hklen]⟩, ?_⟩
    rw [sortCards_eq_of_perm hcp]

end Screw

namespace Screw

theorem mem_group_plays_iff (S dp : List Card) (v : Value) (lpo lpc : Nat)
    (s : String) (hv : ∃ c ∈ S, c.value = v) :
    s ∈ availablePlaysForGroup v ((sortCards S).filter (fun c => c.value = v))
        dp lpo lpc ↔
      ((specWild v ∧ ∃ c ∈ S, c.value = v ∧ s = serialize_card c) ∨
        (¬ specWild v ∧ specFourRun S dp v ∧
          s = serialize_cards (sortCards (rankCards S v))) ∨
        (¬ specWild v ∧ ¬ specFourRun S dp v ∧
          lpo ≤ valueOrderIndex v ∧ lpc ≤ (rankCards S v).length ∧
          ∃ k, lpc ≤ k ∧ k ≤ (rankCards S v).length ∧
            ∃ sub, sub.Sublist (rankCards S v) ∧ sub.length = k ∧
              s = serialize_cards (sortCards sub))) := by
  have hperm : ((sortCards S).filter (fun c => c.value = v)).Perm (rankCards S v) :=
    (sortCards_perm S).filter _
  have hlen := hperm.length_eq
  have hne : (sortCards S).filter (fun c => c.value = v) ≠ [] := by
    obtain ⟨c, hcS, hcv⟩ := hv
    intro hnil
    have hcmem : c ∈ (sortCards S).filter (fun c2 => c2.value = v) :=
      (mem_sorted_filter_iff S v c).mpr ⟨hcS, hcv⟩
    rw [hnil] at hcmem
    simp at hcmem
  unfold availablePlaysForGroup
  by_cases hw : v = .two ∨ v = .ten
  · rw [if_pos hw]
    have hwild : specWild v := hw.symm
    constructor
    · intro hs
      obtain ⟨c, hcG, rfl⟩ := List.mem_map.mp hs
      obtain ⟨hcS, hcv⟩ := (mem_sorted_filter_iff S v c).mp hcG
      exact Or.inl ⟨hwild, c, hcS, hcv, rfl⟩
    · rintro (⟨hwd, c, hcS, hcv, rfl⟩ | ⟨hnw, _⟩ | ⟨hnw, _⟩)
      · exact List.mem_map.mpr ⟨c, (mem_sorted_filter_iff S v c).mpr ⟨hcS, hcv⟩, rfl⟩
      · exact absurd hwild hnw
      · exact absurd hwild hnw
  · rw [if_neg hw]
    have hnwild : ¬ specWild v := fun hsw => hw hsw.symm
    by_cases h4 : ((sortCards S).filter (fun c => c.value = v)).length < 4 ∧
        4 - ((sortCards S).filter (fun c => c.value = v)).length ≤ dp.length ∧
        are_all_cards_same_value ((sortCards S).filter (fun c => c.value = v) ++
          lastN (4 - ((sortCards S).filter (fun c => c.value = v)).length) dp) =
          some true
    · rw [if_pos h4]
      have hfour : specFourRun S dp v := (fourRunCond_iff S dp v hne).mp h4
      have hsort : sortCards ((sortCards S).filter (fun c => c.value = v)) =
          sortCards (rankCards S v) := sortCards_eq_of_perm hperm
      rw [List.mem_singleton]
      constructor
      · intro hs
        exact Or.inr (Or.inl ⟨hnwild, hfour, by rw [hs, hsort]⟩)
      · rintro (⟨hwd, _⟩ | ⟨_, _, hs⟩ | ⟨_, hnf, _⟩)
        · exact absurd hwd hnwild
        · rw [hs, hsort]
        · exact absurd hfour hnf
    · rw [if_neg h4]
      have hnfour : ¬ specFourRun S dp v :=
        fun hf => h4 ((fourRunCond_iff S dp v hne).mpr hf)
      by_cases hg : lpo ≤ valueOrderIndex v ∧
          lpc ≤ ((sortCards S).filter (fun c => c.value = v)).length
      · rw [if_pos hg]
        rw [mem_subset_plays_iff ((sortCards S).filter (fun c => c.value = v))
          (rankCards S v) hperm lpc s]
        constructor
        · rintro ⟨k, hk1, hk2, sub, hsubR, hklen, rfl⟩
          refine Or.inr (Or.inr ⟨hnwild, hnfour, hg.1, ?_, k, hk1, ?_, sub,
            hsubR, hklen, rfl⟩)
          · rw [← hlen]
            exact hg.2
          · rw [← hlen]
            exact hk2
        · rintro (⟨hwd, _⟩ | ⟨_, hf, _⟩ |
            ⟨_, _, _, _, k, hk1, hk2, sub, hsubR, hklen, rfl⟩)
          · exact absurd hwd hnwild
          · exact absurd hf hnfour
          · refine ⟨k, hk1, ?_, sub, hsubR, hklen, rfl⟩
            rw [hlen]
            exact hk2
      · rw [if_neg hg]
        constructor
        · intro hs
          simp at hs
        · rintro (⟨hwd, _⟩ | ⟨_, hf, _⟩ | ⟨_, _, hth, hcnt, _⟩)
          · exact absurd hwd hnwild
          · exact absurd hf hnfour
          · refine absurd ⟨hth, ?_⟩ hg
            rw [hlen]
            exact hcnt

theorem lastPlayParams_eq (lp : Option (List Card)) (hwf : lastPlayWF lp) :
    lastPlayParams lp = some (specThreshold valueOrderIndex lp, specCount lp) := by
  match lp with
  | none => rfl
  | some [] => exact absurd rfl hwf
  | some (l :: rest) => rfl

theorem mem_stack_plays_iff (S dp : List Card) (lp : Option (List Card))
    (s : String) (plays : List String) (hwf : lastPlayWF lp)
    (hpl : get_available_plays_from_stack S lp dp = some plays) :
    (s ∈ plays ↔ specAvailablePlays valueOrderIndex S lp dp s) := by
  unfold get_available_plays_from_stack at hpl
  rw [lastPlayParams_eq lp hwf] at hpl
  have hpl2 := Option.some_inj.mp hpl
  subst hpl2
  rw [List.mem_flatMap]
  unfold specAvailablePlays
  constructor
  · rintro ⟨v, hvdedup, hs⟩
    have hv : ∃ c ∈ S, c.value = v := by
      obtain ⟨c, hc, hcv⟩ := List.mem_map.mp (List.mem_dedup.mp hvdedup)
      exact ⟨c, (sortCards_perm S).mem_iff.mp hc, hcv⟩
    exact ⟨v, hv, (mem_group_plays_iff S dp v _ _ s hv).mp hs⟩
  · rintro ⟨v, hv, hbr⟩
    obtain ⟨c, hcS, hcv⟩ := hv
    refine ⟨v, ?_, (mem_group_plays_iff S dp v _ _ s ⟨c, hcS, hcv⟩).mpr hbr⟩
    exact List.mem_dedup.mpr
      (List.mem_map.mpr ⟨c, (sortCards_perm S).mem_iff.mpr hcS, hcv⟩)

theorem stack_plays_exists (S dp : List Card) (lp : Option (List Card))
    (hwf : lastPlayWF lp) :
    ∃ plays, get_available_plays_from_stack S lp dp = some plays := by
  unfold get_available_plays_from_stack
  rw [lastPlayParams_eq lp hwf]
  exact ⟨_, rfl⟩

end Screw

namespace Screw

/-- C3 amended: `is_play_available` returns true exactly when the sorted
serialisation of the played cards belongs to the claimed available-plays
set of the source stack (hand stack if non-empty, else the face-up table
cards), where the rank threshold uses the engine's value order
2 < 3 < ... < A - so a last play of rank 2 sets the minimum threshold -
rather than the specification's natural order with 2 on top. -/
theorem c3_available_plays_amended (hand : Hand) (lp : Option (List Card))
    (played dp : List Card) (h : lastPlayWF lp) :
    is_play_available hand lp played dp = some true ↔
      specAvailablePlays valueOrderIndex (sourceStack hand) lp dp
        (serialize_cards (sortCards played)) := by
  unfold is_play_available get_available_plays_from_hand sourceStack
  by_cases hh : hand.hand_stack.isEmpty = false
  · rw [if_pos hh, if_pos hh]
    obtain ⟨plays, hpl⟩ := stack_plays_exists hand.hand_stack dp lp h
    rw [hpl]
    rw [show Option.map (fun plays => plays.contains
      (serialize_cards (sortCards played))) (some plays) =
      some (plays.contains (serialize_cards (sortCards played))) from rfl]
    rw [Option.some_inj]
    rw [show (plays.contains (serialize_cards (sortCards played)) = true) ↔
      (serialize_cards (sortCards played)) ∈ plays from List.elem_iff]
    exact mem_stack_plays_iff hand.hand_stack dp lp _ plays h hpl
  · rw [if_neg hh, if_neg hh]
    by_cases ht : hand.table_stacks.isEmpty = false
    · rw [if_pos ht]
      obtain ⟨plays, hpl⟩ :=
        stack_plays_exists (build_face_up_table_stack hand.table_stacks) dp lp h
      rw [hpl]
      rw [show Option.map (fun plays => plays.contains
        (serialize_cards (sortCards played))) (some plays) =
        some (plays.contains (serialize_cards (sortCards played))) from rfl]
      rw [Option.some_inj]
      rw [show (plays.contains (serialize_cards (sortCards played)) = true) ↔
        (serialize_cards (sortCards played)) ∈ plays from List.elem_iff]
      exact mem_stack_plays_iff (build_face_up_table_stack hand.table_stacks)
        dp lp _ plays h hpl
    · rw [if_neg ht]
      have hts : hand.table_stacks = [] := by
        simpa [List.isEmpty_iff] using ht
      constructor
      · intro hfalse
        simp at hfalse
      · rintro ⟨v, ⟨c, hcS, -⟩, -⟩
        rw [hts] at hcS
        simp [build_face_up_table_stack] at hcS

/-- C3 amended witness: a single H3 in hand over a last play of a single
D2 with a one-card discard pile. -/
theorem c3_available_plays_amended_witness :
    lastPlayWF (some [cd .two .diamonds]) ∧
      (is_play_available handC3 (some [cd .two .diamonds]) [cd .three .hearts]
          [cd .two .diamonds] = some true ↔
        specAvailablePlays valueOrderIndex (sourceStack handC3)
          (some [cd .two .diamonds]) [cd .two .diamonds]
          (serialize_cards (sortCards [cd .three .hearts]))) :=
  ⟨by simp [lastPlayWF],
    c3_available_plays_amended handC3 (some [cd .two .diamonds])
      [cd .three .hearts] [cd .two .diamonds] (by simp [lastPlayWF])⟩

/-- C3 counterexample: with a hand of one H3 over a last play of a single
D2, the code accepts playing the H3 (the engine's threshold order puts
rank 2 at the bottom), while the claimed available-plays set under the
specification's natural order (rank 2 on top) does not contain it. -/
theorem c3_natural_order_refuted :
    is_play_available handC3 (some [cd .two .diamonds]) [cd .three .hearts]
        [cd .two .diamonds] = some true ∧
      ¬ specAvailablePlays naturalOrderIndex (sourceStack handC3)
        (some [cd .two .diamonds]) [cd .two .diamonds]
        (serialize_cards (sortCards [cd .three .hearts])) := by
  constructor
  · rfl
  · rintro ⟨v, ⟨c, hcS, hcv⟩, hbr⟩
    have hS : sourceStack handC3 = [cd .three .hearts] := rfl
    rw [hS] at hcS
    have hc : c = cd .three .hearts := by simpa using hcS
    subst hc
    have hv : v = .three := by
      rw [← hcv]
      rfl
    subst hv
    rcases hbr with ⟨hwd, -⟩ | ⟨-, hf, -⟩ | ⟨-, -, hth, -⟩
    · rcases hwd with hq | hq <;> simp at hq
    · rw [hS] at hf
      obtain ⟨-, hlen4, -⟩ := hf
      simp [rankCards, lastN, cd] at hlen4
    · simp [specThreshold, cd, naturalOrderIndex] at hth

end Screw
